import Mathlib

/-!
Shallow embedding of the NzObject multi-tenant object-storage gateway
(`src/server.js`, with the Prisma schema in `src/unnamed/part_000`).

Modelling conventions:
* Byte buffers are `List Nat`; an object's size is the buffer's length.
* The Prisma metadata store is a pair of association lists:
  `apiKeys` keyed by `accessKeyId` (unique in the schema) and
  `buckets` holding `(name, accessKeyId)` pairs (unique in the schema).
* The filesystem backing store is an association list from
  `(accessKeyId, bucketName, objectKey)` to bytes, plus the set of
  directories created by the various `fs.mkdir` calls (kept as a list of
  path-segment lists), since `authenticateRequest` and bucket creation
  mutate it.
* `storageUsed` is a Prisma `BigInt`, so it is modelled as `Int`
  (it can in principle go negative via the unconditional decrement).
* The MD5 fingerprint and the HMAC-SHA256 signature are abstracted as
  function parameters (`hash`, `hmac`); the claims only relate their
  outputs on equal inputs, never their internals.
* JavaScript quirks that matter are modelled explicitly:
  `BigInt > undefined` is `false` (so a plan missing from
  `STORAGE_LIMITS` never rejects), `parseInt` returning `NaN` makes
  `NaN < x` `false` (modelled by `parseIntJS` returning `none`), and
  `!header` treats both a missing header and the empty string as falsy.
-/

/-- One `ApiKey` row: `secretAccessKey`, `plan` (default "free"),
`storageUsed` (`BigInt`, default 0). The unique `accessKeyId` is the
association-list key and therefore not repeated inside the record. -/
structure ApiKeyRec where
  secretAccessKey : String
  plan : String
  storageUsed : Int
deriving Repr, DecidableEq

/-- Object location `(accessKeyId, bucketName, objectKey)`; the concrete
filesystem path in the code is `storage/<accessKeyId>/<bucket>/<key>`. -/
abbrev ObjKey := String × String × String

/-- The whole mutable state: Prisma `ApiKey` rows, Prisma `Bucket` rows
as `(name, accessKeyId)` pairs, stored files, and created directories. -/
structure St where
  apiKeys : List (String × ApiKeyRec)
  buckets : List (String × String)
  files : List (ObjKey × List Nat)
  dirs : List (List String)
deriving Repr, DecidableEq

/-- The state before any provisioning: no keys, no buckets, no files;
only the `storage` root directory created at module load. -/
def emptyState : St :=
  { apiKeys := [], buckets := [], files := [], dirs := [["storage"]] }

/-- `STORAGE_LIMITS = { free: 1024*1024*1024 }`; indexing with any other
plan yields JavaScript `undefined`, modelled as `none`. -/
def STORAGE_LIMITS : String → Option Int
  | "free" => some (1024 * 1024 * 1024)
  | _ => none

/-- `prisma.apiKey.findUnique({ where: { accessKeyId } })`. -/
def findApiKey (s : St) (accessKeyId : String) : Option ApiKeyRec :=
  (s.apiKeys.find? (fun p => p.1 = accessKeyId)).map (fun p => p.2)

/-- `prisma.apiKey.update` setting `storageUsed` on the unique row. -/
def setStorageUsed (s : St) (accessKeyId : String) (v : Int) : St :=
  { s with apiKeys := s.apiKeys.map (fun p =>
      if p.1 = accessKeyId then (p.1, { p.2 with storageUsed := v }) else p) }

/-- `fs.readFile` / `fs.access` / `fs.stat` on a resolved object path:
the stored bytes, when present. -/
def getFile (files : List (ObjKey × List Nat)) (k : ObjKey) : Option (List Nat) :=
  (files.find? (fun p => p.1 = k)).map (fun p => p.2)

/-- `fs.writeFile`: full replace of whatever was at the path. -/
def setFile (files : List (ObjKey × List Nat)) (k : ObjKey) (v : List Nat) :
    List (ObjKey × List Nat) :=
  (k, v) :: files.filter (fun p => p.1 ≠ k)

/-- `fs.unlink`: remove the entry at the path. -/
def eraseFile (files : List (ObjKey × List Nat)) (k : ObjKey) :
    List (ObjKey × List Nat) :=
  files.filter (fun p => p.1 ≠ k)

/-- `fs.mkdir(..., { recursive: true })`: idempotent directory creation. -/
def insertDir (dirs : List (List String)) (d : List String) : List (List String) :=
  if d ∈ dirs then dirs else d :: dirs

/-- `bucketExists(accessKeyId, bucketName)`:
`prisma.bucket.findFirst({ where: { name, accessKeyId } })` is non-null. -/
def bucketExists (s : St) (accessKeyId bucketName : String) : Bool :=
  (s.buckets.find? (fun p => p.1 = bucketName ∧ p.2 = accessKeyId)).isSome

/-- `checkStorageLimit(accessKeyId, fileSize)`: look the key up (throw
`Invalid Access ID` if absent), compute
`newStorageUsed = storageUsed + BigInt(fileSize)`, throw
`Storage limit exceeded` when `newStorageUsed > STORAGE_LIMITS[plan]`,
otherwise persist `newStorageUsed`. In JavaScript the comparison against
`undefined` (a plan outside the table) is `false`, so that branch never
throws and still persists the increment. -/
def checkStorageLimit (s : St) (accessKeyId : String) (fileSize : Int) :
    Except String St :=
  match findApiKey s accessKeyId with
  | none => .error "Invalid Access ID"
  | some apiKey =>
    let newStorageUsed := apiKey.storageUsed + fileSize
    match STORAGE_LIMITS apiKey.plan with
    | some limit =>
      if newStorageUsed > limit then .error "Storage limit exceeded"
      else .ok (setStorageUsed s accessKeyId newStorageUsed)
    | none => .ok (setStorageUsed s accessKeyId newStorageUsed)

/-- Outcome of `POST /buckets/:bucketName/objects`, tagged by the JSON
body the handler sends. -/
inductive PutResult where
  | created (etag : String)
  | bucketNotFound
  | missingFileNameHeader
  | noData
  | storageLimitExceeded
  | failedToSave
deriving Repr, DecidableEq

/-- The request body of the write endpoint: a multer `req.file` upload,
a raw body with its `X-File-Name` header, or nothing. -/
inductive UploadBody where
  | file (originalname : String) (buffer : List Nat)
  | raw (xFileName : Option String) (body : List Nat)
  | empty
deriving Repr, DecidableEq

/-- The shared tail of both upload branches: `checkStorageLimit` with the
content length, `fs.writeFile`, then `fs.readFile` of the just-written
path and the MD5 `ETag` of what was read back. A thrown
`Storage limit exceeded` becomes a 403; any other throw a 500; either
way the handler performs no further mutation. -/
def writeObject (hash : List Nat → String) (s : St)
    (accessKeyId bucketName fileName : String) (content : List Nat) :
    PutResult × St :=
  match checkStorageLimit s accessKeyId (content.length : Int) with
  | .error msg =>
    if msg = "Storage limit exceeded" then (.storageLimitExceeded, s)
    else (.failedToSave, s)
  | .ok s1 =>
    let s2 := { s1 with
      files := setFile s1.files (accessKeyId, bucketName, fileName) content }
    match getFile s2.files (accessKeyId, bucketName, fileName) with
    | some fileContent => (.created (hash fileContent), s2)
    | none => (.failedToSave, s2)

/-- `app.post('/buckets/:bucketName/objects')`: bucket-existence check
first, then branch on the upload kind, then the shared write tail. -/
def putObject (hash : List Nat → String) (s : St)
    (accessKeyId bucketName : String) (body : UploadBody) : PutResult × St :=
  if bucketExists s accessKeyId bucketName = false then (.bucketNotFound, s)
  else
    match body with
    | .file originalname buffer =>
      writeObject hash s accessKeyId bucketName originalname buffer
    | .raw none _ => (.missingFileNameHeader, s)
    | .raw (some fileName) body =>
      writeObject hash s accessKeyId bucketName fileName body
    | .empty => (.noData, s)

/-- Outcome of `GET /buckets/:bucketName/objects/:objectKey`. -/
inductive GetResult where
  | content (bytes : List Nat)
  | bucketNotFound
  | objectNotFound
deriving Repr, DecidableEq

/-- `app.get('/buckets/:bucketName/objects/:objectKey')`: bucket check,
then `fs.access` + `res.sendFile`; the handler never mutates state, so
it returns only the result. -/
def getObject (s : St) (accessKeyId bucketName objectKey : String) : GetResult :=
  if bucketExists s accessKeyId bucketName = false then .bucketNotFound
  else
    match getFile s.files (accessKeyId, bucketName, objectKey) with
    | some bytes => .content bytes
    | none => .objectNotFound

/-- Outcome of `DELETE /buckets/:bucketName/objects/:objectKey`. -/
inductive DelResult where
  | noContent
  | bucketNotFound
  | objectNotFound
deriving Repr, DecidableEq

/-- `app.delete('/buckets/:bucketName/objects/:objectKey')`: bucket
check; `fs.stat` (throws → 404, nothing touched); `fs.unlink`; then
`prisma.apiKey.update` with `decrement: fileStats.size` —
unconditionally, with no clamp against the current counter. Should the
Prisma update throw (row absent), the catch still answers 404 although
the file is already gone. -/
def deleteObject (s : St) (accessKeyId bucketName objectKey : String) :
    DelResult × St :=
  if bucketExists s accessKeyId bucketName = false then (.bucketNotFound, s)
  else
    match getFile s.files (accessKeyId, bucketName, objectKey) with
    | none => (.objectNotFound, s)
    | some bytes =>
      let s1 := { s with files := eraseFile s.files (accessKeyId, bucketName, objectKey) }
      match findApiKey s1 accessKeyId with
      | none => (.objectNotFound, s1)
      | some apiKey =>
        (.noContent,
          setStorageUsed s1 accessKeyId (apiKey.storageUsed - (bytes.length : Int)))

/-- The three authentication headers plus the request descriptor the
signature covers (`req.method`, `req.originalUrl`). -/
structure AuthReq where
  accessId : Option String
  signature : Option String
  timestamp : Option String
  method : String
  originalUrl : String
deriving Repr, DecidableEq

/-- Outcome of the `authenticateRequest` middleware, tagged by the JSON
error body, or the authenticated owner bound to the request context. -/
inductive AuthResult where
  | missingHeaders
  | invalidAccessId
  | requestExpired
  | invalidSignature
  | authenticated (owner : String)
deriving Repr, DecidableEq

/-- JavaScript truthiness of `req.header(...)`: both an absent header
(`undefined`) and the empty string are falsy. -/
def truthy : Option String → Bool
  | none => false
  | some s => s ≠ ""

/-- Decimal digits to a number. -/
def digitsToNat (ds : List Char) : Nat :=
  ds.foldl (fun a c => a * 10 + (c.toNat - 48)) 0

/-- JavaScript `parseInt(s)` restricted to what the server uses: skip
leading whitespace, optional sign, then the longest run of decimal
digits; `none` models the `NaN` result when no digit is found. (The
auto-hex `0x` corner still yields a number in both, never `NaN`.) -/
def parseIntJS (s : String) : Option Int :=
  let cs := s.toList.dropWhile (fun c => c.isWhitespace)
  let signed : Int × List Char :=
    match cs with
    | '-' :: rest => (-1, rest)
    | '+' :: rest => (1, rest)
    | _ => (1, cs)
  let ds := signed.2.takeWhile (fun c => c.isDigit)
  if ds.isEmpty then none
  else some (signed.1 * (digitsToNat ds : Int))

/-- `authenticateRequest` middleware: missing-header check, credential
lookup, the 15-minute freshness check
(`parseInt(timestamp) < Date.now() - 15*60*1000`; with `NaN` the
comparison is `false`, so an unparseable timestamp passes), HMAC-SHA256
signature comparison over `method + originalUrl + timestamp`, and — only
on success — `fs.mkdir(storage/<accessId>, { recursive: true })` before
handing the owner to the route. `hmac secret message` abstracts the hex
digest; `now` is `Date.now()` in milliseconds. -/
def authenticateRequest (hmac : String → String → String) (now : Int)
    (s : St) (r : AuthReq) : AuthResult × St :=
  if (truthy r.accessId && truthy r.signature && truthy r.timestamp) = false then
    (.missingHeaders, s)
  else
    let accessId := r.accessId.getD ""
    let signature := r.signature.getD ""
    let timestamp := r.timestamp.getD ""
    match findApiKey s accessId with
    | none => (.invalidAccessId, s)
    | some apiKey =>
      let fifteenMinutesAgo := now - 15 * 60 * 1000
      let expired : Bool :=
        match parseIntJS timestamp with
        | some t => t < fifteenMinutesAgo
        | none => false
      if expired then (.requestExpired, s)
      else
        let computedSignature :=
          hmac apiKey.secretAccessKey (r.method ++ r.originalUrl ++ timestamp)
        if computedSignature ≠ signature then (.invalidSignature, s)
        else (.authenticated accessId, { s with dirs := insertDir s.dirs ["storage", accessId] })

/-- One sequential API action, covering the two provisioning endpoints
that create the records the data path consumes and the three
(authenticated) object operations. -/
inductive Op where
  | createAccessKey (accessKeyId secretAccessKey plan : String)
  | createBucket (accessKeyId bucketName : String)
  | putOp (accessKeyId bucketName : String) (body : UploadBody)
  | getOp (accessKeyId bucketName objectKey : String)
  | delOp (accessKeyId bucketName objectKey : String)

/-- State transition of one action. `createAccessKey` inserts a fresh
row with `storageUsed = 0` (a duplicate id violates the unique
constraint and creates nothing); `createBucket` checks the key, makes
the bucket directory, and inserts the `(name, accessKeyId)` row unless
the unique pair already exists (the mkdir having already happened);
the object operations are the handlers above. `GET` never mutates. -/
def step (hash : List Nat → String) (s : St) : Op → St
  | .createAccessKey accessKeyId secretAccessKey plan =>
    match findApiKey s accessKeyId with
    | some _ => s
    | none =>
      { s with apiKeys := (accessKeyId, ⟨secretAccessKey, plan, 0⟩) :: s.apiKeys }
  | .createBucket accessKeyId bucketName =>
    match findApiKey s accessKeyId with
    | none => s
    | some _ =>
      let s1 := { s with dirs := insertDir s.dirs ["storage", accessKeyId, bucketName] }
      if (s1.buckets.find? (fun p => p.1 = bucketName ∧ p.2 = accessKeyId)).isSome
      then s1
      else { s1 with buckets := (bucketName, accessKeyId) :: s1.buckets }
  | .putOp accessKeyId bucketName body =>
    (putObject hash s accessKeyId bucketName body).2
  | .getOp _ _ _ => s
  | .delOp accessKeyId bucketName objectKey =>
    (deleteObject s accessKeyId bucketName objectKey).2

/-- Run a sequential trace from a state. -/
def runOps (hash : List Nat → String) (s : St) (ops : List Op) : St :=
  ops.foldl (step hash) s

/-- Sum of the sizes of all objects stored under an owner — the quantity
the spec's quota invariant speaks about. -/
def sumSizes (s : St) (accessKeyId : String) : Nat :=
  ((s.files.filter (fun p => p.1.1 = accessKeyId)).map (fun p => p.2.length)).sum

/-- The owner's bytes-used counter, `0` when the owner has no row. -/
def storageUsedOf (s : St) (accessKeyId : String) : Int :=
  match findApiKey s accessKeyId with
  | some apiKey => apiKey.storageUsed
  | none => 0

/-! ### Helper lemmas about the store primitives -/

/-- List-level form of `sumSizes`, convenient for induction. -/
def sumOwner (files : List (ObjKey × List Nat)) (o : String) : Nat :=
  ((files.filter (fun p => p.1.1 = o)).map (fun p => p.2.length)).sum

theorem sumSizes_eq_sumOwner (s : St) (o : String) : sumSizes s o = sumOwner s.files o := rfl

theorem sumOwner_cons (p : ObjKey × List Nat) (files : List (ObjKey × List Nat)) (o : String) :
    sumOwner (p :: files) o = (if p.1.1 = o then p.2.length else 0) + sumOwner files o := by
  by_cases h : p.1.1 = o <;> simp [sumOwner, List.filter_cons, h]

theorem eraseFile_cons (p : ObjKey × List Nat) (files : List (ObjKey × List Nat)) (k : ObjKey) :
    eraseFile (p :: files) k =
      if p.1 = k then eraseFile files k else p :: eraseFile files k := by
  by_cases h : p.1 = k <;> simp [eraseFile, List.filter_cons, h]

theorem getFile_cons (p : ObjKey × List Nat) (files : List (ObjKey × List Nat)) (k : ObjKey) :
    getFile (p :: files) k = if p.1 = k then some p.2 else getFile files k := by
  by_cases h : p.1 = k <;> simp [getFile, List.find?_cons, h]

theorem sumOwner_erase_le (files : List (ObjKey × List Nat)) (k : ObjKey) (o : String) :
    sumOwner (eraseFile files k) o ≤ sumOwner files o := by
  induction files with
  | nil => exact Nat.le_refl _
  | cons p rest ih =>
    rw [eraseFile_cons]
    by_cases h : p.1 = k
    · rw [if_pos h, sumOwner_cons]
      exact le_trans ih (Nat.le_add_left _ _)
    · rw [if_neg h, sumOwner_cons, sumOwner_cons]
      exact Nat.add_le_add_left ih _

theorem sumOwner_erase_add_le (files : List (ObjKey × List Nat)) (k : ObjKey) (c : List Nat)
    (h : getFile files k = some c) :
    sumOwner (eraseFile files k) k.1 + c.length ≤ sumOwner files k.1 := by
  induction files with
  | nil => simp [getFile] at h
  | cons p rest ih =>
    rw [getFile_cons] at h
    rw [eraseFile_cons]
    by_cases hp : p.1 = k
    · rw [if_pos hp] at h ⊢
      have hc : p.2 = c := by simpa using h
      subst hc
      rw [sumOwner_cons, if_pos (by rw [hp])]
      have := sumOwner_erase_le rest k k.1
      omega
    · rw [if_neg hp] at h ⊢
      rw [sumOwner_cons, sumOwner_cons]
      have := ih h
      omega

theorem setFile_eq (files : List (ObjKey × List Nat)) (k : ObjKey) (v : List Nat) :
    setFile files k v = (k, v) :: eraseFile files k := rfl

theorem sumOwner_setFile (files : List (ObjKey × List Nat)) (k : ObjKey) (v : List Nat)
    (o : String) :
    sumOwner (setFile files k v) o =
      (if k.1 = o then v.length else 0) + sumOwner (eraseFile files k) o := by
  rw [setFile_eq, sumOwner_cons]

theorem getFile_setFile_self (files : List (ObjKey × List Nat)) (k : ObjKey) (v : List Nat) :
    getFile (setFile files k v) k = some v := by
  rw [setFile_eq, getFile_cons, if_pos rfl]

theorem find?_update_storageUsed (l : List (String × ApiKeyRec)) (id : String) (v : Int)
    (o : String) :
    ((l.map (fun p => if p.1 = id then (p.1, { p.2 with storageUsed := v }) else p)).find?
        (fun p => p.1 = o)) =
      if o = id then
        (l.find? (fun p => p.1 = id)).map (fun p => (p.1, { p.2 with storageUsed := v }))
      else l.find? (fun p => p.1 = o) := by
  induction l with
  | nil => by_cases h : o = id <;> simp [h]
  | cons p rest ih =>
    by_cases hpi : p.1 = id <;> by_cases hpo : p.1 = o <;>
      by_cases hoi : o = id <;>
      simp [List.find?_cons, hpi, hpo, hoi, ih] <;>
      simp_all

theorem findApiKey_setStorageUsed (s : St) (id : String) (v : Int) (o : String) :
    findApiKey (setStorageUsed s id v) o =
      if o = id then (findApiKey s id).map (fun k => { k with storageUsed := v })
      else findApiKey s o := by
  unfold findApiKey setStorageUsed
  rw [find?_update_storageUsed]
  by_cases h : o = id
  · simp [h, Option.map_map]
    rfl
  · simp [h]

theorem findApiKey_setStorageUsed_self (s : St) (id : String) (v : Int) (k : ApiKeyRec)
    (h : findApiKey s id = some k) :
    findApiKey (setStorageUsed s id v) id = some { k with storageUsed := v } := by
  rw [findApiKey_setStorageUsed, if_pos rfl, h]
  rfl

theorem findApiKey_setStorageUsed_ne (s : St) (id : String) (v : Int) (o : String)
    (h : o ≠ id) : findApiKey (setStorageUsed s id v) o = findApiKey s o := by
  rw [findApiKey_setStorageUsed, if_neg h]

theorem storageUsedOf_setStorageUsed_self (s : St) (id : String) (v : Int) (k : ApiKeyRec)
    (h : findApiKey s id = some k) :
    storageUsedOf (setStorageUsed s id v) id = v := by
  unfold storageUsedOf
  rw [findApiKey_setStorageUsed_self s id v k h]

theorem storageUsedOf_setStorageUsed_ne (s : St) (id : String) (v : Int) (o : String)
    (h : o ≠ id) : storageUsedOf (setStorageUsed s id v) o = storageUsedOf s o := by
  unfold storageUsedOf
  rw [findApiKey_setStorageUsed_ne s id v o h]

theorem storageUsedOf_eq (s : St) (o : String) (k : ApiKeyRec)
    (h : findApiKey s o = some k) : storageUsedOf s o = k.storageUsed := by
  unfold storageUsedOf
  rw [h]

/-! Frame facts: which state fields each primitive actually touches. -/

theorem setStorageUsed_files (s : St) (id : String) (v : Int) :
    (setStorageUsed s id v).files = s.files := rfl

theorem setStorageUsed_buckets (s : St) (id : String) (v : Int) :
    (setStorageUsed s id v).buckets = s.buckets := rfl

theorem findApiKey_filesUpdate (s : St) (F : List (ObjKey × List Nat)) (o : String) :
    findApiKey { s with files := F } o = findApiKey s o := rfl

theorem storageUsedOf_filesUpdate (s : St) (F : List (ObjKey × List Nat)) (o : String) :
    storageUsedOf { s with files := F } o = storageUsedOf s o := rfl

theorem sumSizes_filesUpdate (s : St) (F : List (ObjKey × List Nat)) (o : String) :
    sumSizes { s with files := F } o = sumOwner F o := rfl

theorem sumSizes_setStorageUsed (s : St) (id : String) (v : Int) (o : String) :
    sumSizes (setStorageUsed s id v) o = sumSizes s o := rfl

theorem bucketExists_congr (s' s : St) (o b : String) (h : s'.buckets = s.buckets) :
    bucketExists s' o b = bucketExists s o b := by
  unfold bucketExists
  rw [h]

/-! ### Characterizations of `checkStorageLimit` -/

theorem checkStorageLimit_ok (s : St) (id : String) (n : Int) (s1 : St)
    (h : checkStorageLimit s id n = .ok s1) :
    ∃ k, findApiKey s id = some k ∧
      s1 = setStorageUsed s id (k.storageUsed + n) ∧
      ∀ L, STORAGE_LIMITS k.plan = some L → k.storageUsed + n ≤ L := by
  unfold checkStorageLimit at h
  cases hk : findApiKey s id with
  | none => rw [hk] at h; exact absurd h (by simp)
  | some k =>
    rw [hk] at h
    dsimp only at h
    refine ⟨k, rfl, ?_, ?_⟩
    · cases hL : STORAGE_LIMITS k.plan with
      | none =>
        rw [hL] at h
        simpa using h.symm
      | some L =>
        rw [hL] at h
        dsimp only at h
        by_cases hgt : k.storageUsed + n > L
        · rw [if_pos hgt] at h
          exact absurd h (by simp)
        · rw [if_neg hgt] at h
          simpa using h.symm
    · intro L hL
      rw [hL] at h
      dsimp only at h
      by_cases hgt : k.storageUsed + n > L
      · rw [if_pos hgt] at h
        exact absurd h (by simp)
      · omega

theorem checkStorageLimit_exceeded (s : St) (id : String) (n : Int) (k : ApiKeyRec) (L : Int)
    (hk : findApiKey s id = some k) (hL : STORAGE_LIMITS k.plan = some L)
    (hgt : k.storageUsed + n > L) :
    checkStorageLimit s id n = .error "Storage limit exceeded" := by
  unfold checkStorageLimit
  rw [hk]
  simp only [hL, if_pos hgt]

theorem checkStorageLimit_noLimit (s : St) (id : String) (n : Int) (k : ApiKeyRec)
    (hk : findApiKey s id = some k) (hL : STORAGE_LIMITS k.plan = none) :
    checkStorageLimit s id n = .ok (setStorageUsed s id (k.storageUsed + n)) := by
  unfold checkStorageLimit
  rw [hk]
  simp only [hL]

/-! ### Characterizations of the three object handlers -/

theorem writeObject_error (hash : List Nat → String) (s : St)
    (id b name : String) (c : List Nat) (msg : String)
    (h : checkStorageLimit s id (c.length : Int) = .error msg) :
    writeObject hash s id b name c =
      ((if msg = "Storage limit exceeded" then .storageLimitExceeded else .failedToSave), s) := by
  unfold writeObject
  rw [h]
  by_cases hm : msg = "Storage limit exceeded" <;> simp [hm]

theorem writeObject_ok (hash : List Nat → String) (s : St)
    (id b name : String) (c : List Nat) (s1 : St)
    (h : checkStorageLimit s id (c.length : Int) = .ok s1) :
    writeObject hash s id b name c =
      (.created (hash c), { s1 with files := setFile s1.files (id, b, name) c }) := by
  unfold writeObject
  rw [h]
  simp only [getFile_setFile_self]

theorem putObject_noBucket (hash : List Nat → String) (s : St) (o b : String)
    (body : UploadBody) (hb : bucketExists s o b = false) :
    putObject hash s o b body = (.bucketNotFound, s) := by
  unfold putObject
  rw [hb]
  simp

theorem putObject_raw (hash : List Nat → String) (s : St) (o b key : String) (c : List Nat)
    (hb : bucketExists s o b = true) :
    putObject hash s o b (.raw (some key) c) = writeObject hash s o b key c := by
  unfold putObject
  rw [hb]
  simp

theorem putObject_file (hash : List Nat → String) (s : St) (o b name : String) (c : List Nat)
    (hb : bucketExists s o b = true) :
    putObject hash s o b (.file name c) = writeObject hash s o b name c := by
  unfold putObject
  rw [hb]
  simp

theorem putObject_noName (hash : List Nat → String) (s : St) (o b : String) (c : List Nat)
    (hb : bucketExists s o b = true) :
    putObject hash s o b (.raw none c) = (.missingFileNameHeader, s) := by
  unfold putObject
  rw [hb]
  simp

theorem putObject_noData (hash : List Nat → String) (s : St) (o b : String)
    (hb : bucketExists s o b = true) :
    putObject hash s o b .empty = (.noData, s) := by
  unfold putObject
  rw [hb]
  simp

theorem getObject_noBucket (s : St) (o b key : String)
    (hb : bucketExists s o b = false) : getObject s o b key = .bucketNotFound := by
  unfold getObject
  rw [hb]
  simp

theorem getObject_found (s : St) (o b key : String) (c : List Nat)
    (hb : bucketExists s o b = true) (hf : getFile s.files (o, b, key) = some c) :
    getObject s o b key = .content c := by
  unfold getObject
  rw [hb, hf]
  simp

theorem deleteObject_noBucket (s : St) (o b key : String)
    (hb : bucketExists s o b = false) : deleteObject s o b key = (.bucketNotFound, s) := by
  unfold deleteObject
  rw [hb]
  simp

theorem deleteObject_noObject (s : St) (o b key : String)
    (hb : bucketExists s o b = true) (hf : getFile s.files (o, b, key) = none) :
    deleteObject s o b key = (.objectNotFound, s) := by
  unfold deleteObject
  rw [hb, hf]
  simp

theorem deleteObject_found (s : St) (o b key : String) (c : List Nat) (k : ApiKeyRec)
    (hb : bucketExists s o b = true) (hf : getFile s.files (o, b, key) = some c)
    (hk : findApiKey s o = some k) :
    deleteObject s o b key =
      (.noContent,
        setStorageUsed { s with files := eraseFile s.files (o, b, key) } o
          (k.storageUsed - (c.length : Int))) := by
  unfold deleteObject
  rw [hb, hf]
  dsimp only
  rw [findApiKey_filesUpdate, hk]
  simp

theorem deleteObject_found_noKey (s : St) (o b key : String) (c : List Nat)
    (hb : bucketExists s o b = true) (hf : getFile s.files (o, b, key) = some c)
    (hk : findApiKey s o = none) :
    deleteObject s o b key =
      (.objectNotFound, { s with files := eraseFile s.files (o, b, key) }) := by
  unfold deleteObject
  rw [hb, hf]
  dsimp only
  rw [findApiKey_filesUpdate, hk]
  simp

/-! ### The quota invariant of sequential executions -/

/-- In every state reachable by a sequential run of the API, each
owner's bytes-used counter dominates the total size of the bytes
actually stored under that owner (replacement only ever overcounts,
successful deletes subtract exactly the removed size). -/
def QuotaInv (s : St) : Prop :=
  ∀ o : String, (sumSizes s o : Int) ≤ storageUsedOf s o

theorem quotaInv_emptyState : QuotaInv emptyState := by
  intro o
  exact Int.le_refl 0

theorem quotaInv_writeObject (hash : List Nat → String) (s : St)
    (id b name : String) (c : List Nat) (hInv : QuotaInv s) :
    QuotaInv (writeObject hash s id b name c).2 := by
  cases hcheck : checkStorageLimit s id (c.length : Int) with
  | error msg =>
    rw [writeObject_error hash s id b name c msg hcheck]
    by_cases hm : msg = "Storage limit exceeded" <;> simp [hm] <;> exact hInv
  | ok s1 =>
    rw [writeObject_ok hash s id b name c s1 hcheck]
    obtain ⟨k, hk, rfl, -⟩ := checkStorageLimit_ok s id (c.length : Int) s1 hcheck
    intro o
    rw [sumSizes_filesUpdate, storageUsedOf_filesUpdate, setStorageUsed_files,
      sumOwner_setFile]
    by_cases ho : o = id
    · subst ho
      rw [storageUsedOf_setStorageUsed_self s o _ k hk, if_pos rfl]
      have h1 := sumOwner_erase_le s.files (o, b, name) o
      have h2 := hInv o
      rw [sumSizes_eq_sumOwner, storageUsedOf_eq s o k hk] at h2
      push_cast
      omega
    · rw [storageUsedOf_setStorageUsed_ne s id _ o (fun h => ho h), if_neg ?hne]
      case hne => exact fun h => ho h.symm
      have h1 := sumOwner_erase_le s.files (id, b, name) o
      have h2 := hInv o
      rw [sumSizes_eq_sumOwner] at h2
      push_cast
      omega

theorem quotaInv_putObject (hash : List Nat → String) (s : St)
    (o b : String) (body : UploadBody) (hInv : QuotaInv s) :
    QuotaInv (putObject hash s o b body).2 := by
  by_cases hb : bucketExists s o b = true
  · cases body with
    | file name buf =>
      rw [putObject_file hash s o b name buf hb]
      exact quotaInv_writeObject hash s o b name buf hInv
    | raw xfn bd =>
      cases xfn with
      | none =>
        rw [putObject_noName hash s o b bd hb]
        exact hInv
      | some name =>
        rw [putObject_raw hash s o b name bd hb]
        exact quotaInv_writeObject hash s o b name bd hInv
    | empty =>
      rw [putObject_noData hash s o b hb]
      exact hInv
  · rw [putObject_noBucket hash s o b body (by simpa using hb)]
    exact hInv

theorem quotaInv_deleteObject (s : St) (o b key : String) (hInv : QuotaInv s) :
    QuotaInv (deleteObject s o b key).2 := by
  by_cases hb : bucketExists s o b = true
  · cases hf : getFile s.files (o, b, key) with
    | none =>
      rw [deleteObject_noObject s o b key hb hf]
      exact hInv
    | some c =>
      cases hk : findApiKey s o with
      | none =>
        rw [deleteObject_found_noKey s o b key c hb hf hk]
        intro o'
        rw [sumSizes_filesUpdate, storageUsedOf_filesUpdate]
        have h1 := sumOwner_erase_le s.files (o, b, key) o'
        have h2 := hInv o'
        rw [sumSizes_eq_sumOwner] at h2
        omega
      | some k =>
        rw [deleteObject_found s o b key c k hb hf hk]
        intro o'
        rw [sumSizes_setStorageUsed, sumSizes_filesUpdate]
        by_cases ho : o' = o
        · subst ho
          rw [storageUsedOf_setStorageUsed_self _ o' _ k
            (by rw [findApiKey_filesUpdate]; exact hk)]
          have h1 : sumOwner (eraseFile s.files (o', b, key)) o' + c.length ≤
              sumOwner s.files o' :=
            sumOwner_erase_add_le s.files (o', b, key) c hf
          have h2 := hInv o'
          rw [sumSizes_eq_sumOwner, storageUsedOf_eq s o' k hk] at h2
          omega
        · rw [storageUsedOf_setStorageUsed_ne _ o _ o' ho, storageUsedOf_filesUpdate]
          have h1 := sumOwner_erase_le s.files (o, b, key) o'
          have h2 := hInv o'
          rw [sumSizes_eq_sumOwner] at h2
          omega
  · rw [deleteObject_noBucket s o b key (by simpa using hb)]
    exact hInv

theorem findApiKey_consKey (s : St) (id : String) (rec : ApiKeyRec) (o : String) :
    findApiKey { s with apiKeys := (id, rec) :: s.apiKeys } o =
      if id = o then some rec else findApiKey s o := by
  by_cases h : id = o <;> simp [findApiKey, List.find?_cons, h]

theorem storageUsedOf_eq_zero_of_none (s : St) (o : String) (h : findApiKey s o = none) :
    storageUsedOf s o = 0 := by
  unfold storageUsedOf
  rw [h]

theorem storageUsedOf_consKey (s : St) (id : String) (rec : ApiKeyRec) (o : String) :
    storageUsedOf { s with apiKeys := (id, rec) :: s.apiKeys } o =
      if id = o then rec.storageUsed else storageUsedOf s o := by
  unfold storageUsedOf
  rw [findApiKey_consKey]
  by_cases h : id = o <;> simp [h]

theorem sumSizes_apiKeysUpdate (s : St) (A : List (String × ApiKeyRec)) (o : String) :
    sumSizes { s with apiKeys := A } o = sumSizes s o := rfl

theorem quotaInv_step (hash : List Nat → String) (s : St) (op : Op) (hInv : QuotaInv s) :
    QuotaInv (step hash s op) := by
  cases op with
  | createAccessKey id secret plan =>
    simp only [step]
    cases hk : findApiKey s id with
    | some k => exact hInv
    | none =>
      dsimp only
      intro o
      rw [sumSizes_apiKeysUpdate, storageUsedOf_consKey]
      by_cases ho : id = o
      · rw [if_pos ho]
        have h2 := hInv o
        rw [ho] at hk
        rw [storageUsedOf_eq_zero_of_none s o hk] at h2
        exact h2
      · rw [if_neg ho]
        exact hInv o
  | createBucket id b =>
    simp only [step]
    cases hk : findApiKey s id with
    | none => exact hInv
    | some k =>
      dsimp only
      intro o
      have h2 := hInv o
      split <;> exact h2
  | putOp id b body => exact quotaInv_putObject hash s id b body hInv
  | getOp id b key => exact hInv
  | delOp id b key => exact quotaInv_deleteObject s id b key hInv

theorem quotaInv_runOps (hash : List Nat → String) (ops : List Op) (s : St)
    (hInv : QuotaInv s) : QuotaInv (runOps hash s ops) := by
  induction ops generalizing s with
  | nil => exact hInv
  | cons op rest ih =>
    exact ih (step hash s op) (quotaInv_step hash s op hInv)

/-! ### Inversion of a successful write -/

theorem writeObject_created_inv (hash : List Nat → String) (s : St)
    (o b name : String) (c : List Nat) (etag : String)
    (h : (writeObject hash s o b name c).1 = .created etag) :
    ∃ s1, checkStorageLimit s o (c.length : Int) = .ok s1 ∧
      (writeObject hash s o b name c).2 =
        { s1 with files := setFile s1.files (o, b, name) c } ∧
      etag = hash c := by
  cases hcheck : checkStorageLimit s o (c.length : Int) with
  | error msg =>
    rw [writeObject_error hash s o b name c msg hcheck] at h
    exfalso
    by_cases hm : msg = "Storage limit exceeded" <;> simp [hm] at h
  | ok s1 =>
    rw [writeObject_ok hash s o b name c s1 hcheck] at h ⊢
    refine ⟨s1, rfl, rfl, ?_⟩
    simpa using h.symm

theorem putObject_created_inv (hash : List Nat → String) (s : St) (o b : String)
    (body : UploadBody) (etag : String)
    (h : (putObject hash s o b body).1 = .created etag) :
    ∃ (key : String) (c : List Nat) (s1 : St),
      bucketExists s o b = true ∧
      checkStorageLimit s o (c.length : Int) = .ok s1 ∧
      (putObject hash s o b body).2 =
        { s1 with files := setFile s1.files (o, b, key) c } ∧
      etag = hash c := by
  by_cases hb : bucketExists s o b = true
  · cases body with
    | file name buf =>
      rw [putObject_file hash s o b name buf hb] at h ⊢
      obtain ⟨s1, hcheck, hsnd, he⟩ := writeObject_created_inv hash s o b name buf etag h
      exact ⟨name, buf, s1, hb, hcheck, hsnd, he⟩
    | raw xfn bd =>
      cases xfn with
      | none =>
        rw [putObject_noName hash s o b bd hb] at h
        simp at h
      | some name =>
        rw [putObject_raw hash s o b name bd hb] at h ⊢
        obtain ⟨s1, hcheck, hsnd, he⟩ := writeObject_created_inv hash s o b name bd etag h
        exact ⟨name, bd, s1, hb, hcheck, hsnd, he⟩
    | empty =>
      rw [putObject_noData hash s o b hb] at h
      simp at h
  · rw [putObject_noBucket hash s o b body (by simpa using hb)] at h
    simp at h

theorem putObject_raw_created (hash : List Nat → String) (s : St) (o b key : String)
    (c : List Nat) (etag : String)
    (h : (putObject hash s o b (.raw (some key) c)).1 = .created etag) :
    ∃ k, findApiKey s o = some k ∧ bucketExists s o b = true ∧
      (putObject hash s o b (.raw (some key) c)).2 =
        { setStorageUsed s o (k.storageUsed + (c.length : Int)) with
            files := setFile s.files (o, b, key) c } ∧
      etag = hash c := by
  by_cases hb : bucketExists s o b = true
  · rw [putObject_raw hash s o b key c hb] at h ⊢
    obtain ⟨s1, hcheck, hsnd, he⟩ := writeObject_created_inv hash s o b key c etag h
    obtain ⟨k, hk0, rfl, -⟩ := checkStorageLimit_ok s o (c.length : Int) s1 hcheck
    exact ⟨k, hk0, hb, hsnd, he⟩
  · rw [putObject_noBucket hash s o b _ (by simpa using hb)] at h
    simp at h

/-! ### Concrete instances used by closed examples -/

/-- A concrete stand-in for the abstract content digest in closed
examples: the decimal length of the content. -/
def hashLen : List Nat → String := fun l => toString l.length

/-- A concrete stand-in for the abstract keyed digest in closed
examples. -/
def hmacConst : String → String → String := fun _ _ => "sig"

/-- A provisioned state: one free-plan credential `u` with 0 bytes used
and one bucket `b` owned by it. -/
def baseState : St :=
  { apiKeys := [("u", ⟨"sec", "free", 0⟩)], buckets := [("b", "u")],
    files := [], dirs := [["storage"]] }

/-- Like `baseState` but with the free-plan quota fully consumed. -/
def fullState : St :=
  { apiKeys := [("u", ⟨"sec", "free", 1024 * 1024 * 1024⟩)], buckets := [("b", "u")],
    files := [], dirs := [["storage"]] }

/-- A credential on an unrecognized plan tier with a huge counter. -/
def proState : St :=
  { apiKeys := [("p", ⟨"sec", "pro", 123456789123⟩)], buckets := [("b", "p")],
    files := [], dirs := [["storage"]] }

/-- A state whose counter (0) is smaller than a stored object's size:
unreachable sequentially, but a legal store content. -/
def negState : St :=
  { apiKeys := [("u", ⟨"sec", "free", 0⟩)], buckets := [("b", "u")],
    files := [(("u", "b", "k"), [1, 2, 3, 4, 5])], dirs := [["storage"]] }

/-- The provisioning prefix used by trace witnesses. -/
def opsW : List Op := [.createAccessKey "u" "sec" "free", .createBucket "u" "b"]

/-- A fully valid signed request from `u` (constant-digest signature). -/
def authReq1 : AuthReq :=
  { accessId := some "u", signature := some "sig", timestamp := some "100",
    method := "GET", originalUrl := "/buckets" }

/-! ### Claim theorems -/

/-- C2: if an owner's plan has a limit in the static table and the write
would push bytes-used over it, `PutObject` answers
`StorageLimitExceeded` and the whole state — files and bytes-used
counter — is exactly the state before the request: the rejection happens
inside `checkStorageLimit`, before the payload is written. -/
theorem quota_rejection_blocks_write (hash : List Nat → String) (s : St)
    (o b key : String) (c : List Nat) (k : ApiKeyRec) (L : Int)
    (hb : bucketExists s o b = true)
    (hk : findApiKey s o = some k)
    (hL : STORAGE_LIMITS k.plan = some L)
    (hgt : k.storageUsed + (c.length : Int) > L) :
    putObject hash s o b (.raw (some key) c) = (.storageLimitExceeded, s) := by
  rw [putObject_raw hash s o b key c hb,
    writeObject_error hash s o b key c _ (checkStorageLimit_exceeded s o _ k L hk hL hgt)]
  rw [if_pos rfl]

/-- Witness for C2: with the free-plan quota already at its one-GiB
limit, a one-byte write is rejected and the state is untouched. -/
theorem quota_rejection_blocks_write_witness :
    putObject hashLen fullState "u" "b" (.raw (some "k") [7]) =
      (.storageLimitExceeded, fullState) :=
  quota_rejection_blocks_write hashLen fullState "u" "b" "k" [7]
    ⟨"sec", "free", 1024 * 1024 * 1024⟩ (1024 * 1024 * 1024)
    (by decide) (by decide) (by decide) (by decide)

/-- C7: deleting a key with no stored object, in an existing bucket,
answers `ObjectNotFound` and returns the state unchanged (the
`fs.stat` throw happens before the unlink and the counter decrement). -/
theorem delete_missing_key_is_noop (s : St) (o b key : String)
    (hb : bucketExists s o b = true)
    (hf : getFile s.files (o, b, key) = none) :
    deleteObject s o b key = (.objectNotFound, s) :=
  deleteObject_noObject s o b key hb hf

/-- Witness for C7: deleting the never-written key `nope` in the
provisioned bucket is a no-op 404. -/
theorem delete_missing_key_is_noop_witness :
    deleteObject baseState "u" "b" "nope" = (.objectNotFound, baseState) :=
  delete_missing_key_is_noop baseState "u" "b" "nope" (by decide) (by decide)

/-- C8: when the bucket directory has no `(owner, name)` record, all
three object operations answer `BucketNotFound` with the state exactly
as before — no file access and no quota-ledger access happen. -/
theorem missing_bucket_rejected_before_any_effect (hash : List Nat → String) (s : St)
    (o b key : String) (body : UploadBody)
    (hb : bucketExists s o b = false) :
    putObject hash s o b body = (.bucketNotFound, s) ∧
    getObject s o b key = .bucketNotFound ∧
    deleteObject s o b key = (.bucketNotFound, s) :=
  ⟨putObject_noBucket hash s o b body hb, getObject_noBucket s o b key hb,
    deleteObject_noBucket s o b key hb⟩

/-- Witness for C8: the unprovisioned bucket name `nosuch` is rejected
by write, read and delete alike. -/
theorem missing_bucket_rejected_before_any_effect_witness :
    putObject hashLen baseState "u" "nosuch" (.raw (some "k") [1]) =
      (.bucketNotFound, baseState) ∧
    getObject baseState "u" "nosuch" "k" = .bucketNotFound ∧
    deleteObject baseState "u" "nosuch" "k" = (.bucketNotFound, baseState) :=
  missing_bucket_rejected_before_any_effect hashLen baseState "u" "nosuch" "k"
    (.raw (some "k") [1]) (by decide)

/-- C9: for a credential whose plan tier is missing from
`STORAGE_LIMITS` (any plan other than `free`), the quota check never
rejects — in JavaScript `newStorageUsed > undefined` is `false` — so a
write of any size is persisted and the counter incremented, no matter
how large `storageUsed` already is. -/
theorem unknown_plan_never_rejects (hash : List Nat → String) (s : St)
    (o b key : String) (c : List Nat) (k : ApiKeyRec)
    (hb : bucketExists s o b = true)
    (hk : findApiKey s o = some k)
    (hL : STORAGE_LIMITS k.plan = none) :
    putObject hash s o b (.raw (some key) c) =
      (.created (hash c),
        { setStorageUsed s o (k.storageUsed + (c.length : Int)) with
            files := setFile s.files (o, b, key) c }) := by
  rw [putObject_raw hash s o b key c hb,
    writeObject_ok hash s o b key c _ (checkStorageLimit_noLimit s o _ k hk hL)]
  rfl

/-- Witness for C9: a `pro`-plan credential with a counter far beyond
the free limit still gets its write stored and charged. -/
theorem unknown_plan_never_rejects_witness :
    putObject hashLen proState "p" "b" (.raw (some "k") [1, 2]) =
      (.created (hashLen [1, 2]),
        { setStorageUsed proState "p"
            ((123456789123 : Int) + (([1, 2] : List Nat).length : Int)) with
            files := setFile proState.files ("p", "b", "k") [1, 2] }) :=
  unknown_plan_never_rejects hashLen proState "p" "b" "k" [1, 2]
    ⟨"sec", "pro", 123456789123⟩ (by decide) (by decide) (by decide)

/-- C6: a successful write of content `c` followed by a read of the
same (owner, bucket, key) returns exactly `c`, and the `ETag` returned
at write time is the digest of the bytes the read returns. -/
theorem write_then_read_roundtrip (hash : List Nat → String) (s : St)
    (o b key etag : String) (c : List Nat)
    (h : (putObject hash s o b (.raw (some key) c)).1 = .created etag) :
    getObject (putObject hash s o b (.raw (some key) c)).2 o b key = .content c ∧
    etag = hash c := by
  obtain ⟨k, hk, hb, hsnd, he⟩ := putObject_raw_created hash s o b key c etag h
  refine ⟨?_, he⟩
  rw [hsnd]
  apply getObject_found
  · show bucketExists s o b = true
    exact hb
  · exact getFile_setFile_self s.files (o, b, key) c

/-- Witness for C6: the two-byte write round-trips and its tag is the
digest of the content. -/
theorem write_then_read_roundtrip_witness :
    getObject (putObject hashLen baseState "u" "b" (.raw (some "k") [9, 9])).2
      "u" "b" "k" = .content [9, 9] ∧ "2" = hashLen [9, 9] :=
  write_then_read_roundtrip hashLen baseState "u" "b" "k" "2" [9, 9] (by decide)

/-- C3: in any sequential execution from the unprovisioned initial
state, immediately after a successful write by an owner whose plan tier
is in the static limits table, the sum of the stored object sizes under
that owner is at most the owner's plan limit. (The counter dominates
the stored sum in every reachable state, and a successful write leaves
the counter at most the limit.) -/
theorem single_write_keeps_owner_bytes_within_limit
    (hash : List Nat → String) (ops : List Op) (o b : String) (body : UploadBody)
    (etag : String) (kr : ApiKeyRec) (L : Int)
    (h : (putObject hash (runOps hash emptyState ops) o b body).1 = .created etag)
    (hk : findApiKey (putObject hash (runOps hash emptyState ops) o b body).2 o = some kr)
    (hL : STORAGE_LIMITS kr.plan = some L) :
    (sumSizes (putObject hash (runOps hash emptyState ops) o b body).2 o : Int) ≤ L := by
  set s := runOps hash emptyState ops with hs
  have hInv : QuotaInv s := quotaInv_runOps hash ops emptyState quotaInv_emptyState
  have hInv2 : QuotaInv (putObject hash s o b body).2 :=
    quotaInv_putObject hash s o b body hInv
  obtain ⟨key, c, s1, hb, hcheck, hsnd, -⟩ := putObject_created_inv hash s o b body etag h
  obtain ⟨k, hk0, rfl, hbound⟩ := checkStorageLimit_ok s o (c.length : Int) s1 hcheck
  rw [hsnd] at hk
  rw [findApiKey_filesUpdate, findApiKey_setStorageUsed_self s o _ k hk0] at hk
  have hkr : kr = { k with storageUsed := k.storageUsed + (c.length : Int) } :=
    (Option.some.inj hk).symm
  have hplan : kr.plan = k.plan := by rw [hkr]
  have hle : k.storageUsed + (c.length : Int) ≤ L := hbound L (by rw [← hplan]; exact hL)
  have hq := hInv2 o
  rw [hsnd] at hq ⊢
  rw [storageUsedOf_filesUpdate, storageUsedOf_setStorageUsed_self s o _ k hk0] at hq
  exact le_trans hq hle

/-- Witness for C3: after provisioning `u` on the free plan and writing
three bytes, the stored sum is within the one-GiB free limit. -/
theorem single_write_keeps_owner_bytes_within_limit_witness :
    (sumSizes (putObject hashLen (runOps hashLen emptyState opsW) "u" "b"
        (.raw (some "k") [1, 2, 3])).2 "u" : Int) ≤ 1024 * 1024 * 1024 :=
  single_write_keeps_owner_bytes_within_limit hashLen opsW "u" "b"
    (.raw (some "k") [1, 2, 3]) "3" ⟨"sec", "free", 3⟩ (1024 * 1024 * 1024)
    (by decide) (by decide) (by decide)

/-- C5 counterexample: the delete handler performs an unconditional
Prisma `decrement` with no clamp or rejection. From a state whose
counter (0) is smaller than the stored object's size (5), deleting the
object succeeds and drives `storageUsed` to `-5 < 0`, so the claimed
clamp-or-reject behavior is absent from the code. -/
theorem release_decrements_below_zero_cex :
    (deleteObject negState "u" "b" "k").1 = .noContent ∧
    storageUsedOf (deleteObject negState "u" "b" "k").2 "u" = -5 ∧
    ¬ (0 : Int) ≤ -5 := by decide

/-- C5 as amended: the decrement is unconditional (no clamp, as the
counterexample shows on an artificial state), yet in every sequential
execution of the API from the unprovisioned initial state the counter
never goes below zero, because it always dominates the non-negative sum
of stored sizes. -/
theorem bytes_used_nonneg_in_sequential_runs (hash : List Nat → String)
    (ops : List Op) (o : String) :
    0 ≤ storageUsedOf (runOps hash emptyState ops) o := by
  have h := quotaInv_runOps hash ops emptyState quotaInv_emptyState o
  have h0 : (0 : Int) ≤ (sumSizes (runOps hash emptyState ops) o : Int) :=
    Int.ofNat_nonneg _
  exact le_trans h0 h

/-- C1 counterexample: from the fresh provisioned state, writing 3
bytes then 5 bytes to the same key leaves only the second content
readable, but the bytes-used counter ends at `3 + 5 = 8`, not at the
replacement's size 5 — the replaced object's size is never released. -/
theorem replace_does_not_release_old_size_cex :
    getObject (putObject hashLen (putObject hashLen baseState "u" "b"
        (.raw (some "k") [1, 2, 3])).2 "u" "b" (.raw (some "k") [4, 5, 6, 7, 8])).2
        "u" "b" "k" = .content [4, 5, 6, 7, 8] ∧
    storageUsedOf (putObject hashLen (putObject hashLen baseState "u" "b"
        (.raw (some "k") [1, 2, 3])).2 "u" "b" (.raw (some "k") [4, 5, 6, 7, 8])).2 "u" = 8 ∧
    (8 : Int) ≠ 5 := by decide

/-- C1 as amended: after two successful writes to the same (owner,
bucket, key), only the second content is readable — the backing store
keeps no trace of the first — but the owner's bytes-used counter is
charged for both writes: it ends at its initial value plus the sizes of
both contents, because the write path never releases the replaced
object's size. -/
theorem replace_keeps_new_content_but_charges_both_sizes
    (hash : List Nat → String) (s : St) (o b key : String) (c1 c2 : List Nat)
    (e1 e2 : String)
    (h1 : (putObject hash s o b (.raw (some key) c1)).1 = .created e1)
    (h2 : (putObject hash (putObject hash s o b (.raw (some key) c1)).2 o b
        (.raw (some key) c2)).1 = .created e2) :
    getObject (putObject hash (putObject hash s o b (.raw (some key) c1)).2 o b
        (.raw (some key) c2)).2 o b key = .content c2 ∧
    storageUsedOf (putObject hash (putObject hash s o b (.raw (some key) c1)).2 o b
        (.raw (some key) c2)).2 o =
      storageUsedOf s o + (c1.length : Int) + (c2.length : Int) := by
  obtain ⟨k, hk, hb, hsnd1, -⟩ := putObject_raw_created hash s o b key c1 e1 h1
  obtain ⟨k2, hk2, hb2, hsnd2, -⟩ :=
    putObject_raw_created hash (putObject hash s o b (.raw (some key) c1)).2 o b key c2 e2 h2
  have hk2v : findApiKey (putObject hash s o b (.raw (some key) c1)).2 o =
      some { k with storageUsed := k.storageUsed + (c1.length : Int) } := by
    rw [hsnd1]
    rw [findApiKey_filesUpdate, findApiKey_setStorageUsed_self s o _ k hk]
  have hk2eq : k2 = { k with storageUsed := k.storageUsed + (c1.length : Int) } :=
    (Option.some.inj (hk2v.symm.trans hk2)).symm
  constructor
  · rw [hsnd2]
    apply getObject_found
    · show bucketExists (putObject hash s o b (.raw (some key) c1)).2 o b = true
      exact hb2
    · exact getFile_setFile_self _ (o, b, key) c2
  · rw [hsnd2]
    rw [storageUsedOf_filesUpdate,
      storageUsedOf_setStorageUsed_self _ o _ k2 hk2, hk2eq,
      storageUsedOf_eq s o k hk]

/-- Witness for the amended C1: concrete 3-byte then 5-byte writes give
counter `0 + 3 + 5`. -/
theorem replace_keeps_new_content_but_charges_both_sizes_witness :
    getObject (putObject hashLen (putObject hashLen baseState "u" "b"
        (.raw (some "k") [1, 2, 3])).2 "u" "b" (.raw (some "k") [4, 5, 6, 7, 8])).2
        "u" "b" "k" = .content [4, 5, 6, 7, 8] ∧
    storageUsedOf (putObject hashLen (putObject hashLen baseState "u" "b"
        (.raw (some "k") [1, 2, 3])).2 "u" "b" (.raw (some "k") [4, 5, 6, 7, 8])).2 "u" =
      storageUsedOf baseState "u" + (([1, 2, 3] : List Nat).length : Int) +
        (([4, 5, 6, 7, 8] : List Nat).length : Int) :=
  replace_keeps_new_content_but_charges_both_sizes hashLen baseState "u" "b" "k"
    [1, 2, 3] [4, 5, 6, 7, 8] "3" "5" (by decide) (by decide)

/-- C4 counterexample: a fully valid request authenticates and the
post-middleware state differs from the pre-request state — the
middleware has created the tenant's storage-root directory
(`fs.mkdir(storage/<accessId>)`), a mutation of the backing store, so
the authentication step is not free of side effects beyond a lookup. -/
theorem auth_success_creates_directory_cex :
    (authenticateRequest hmacConst 0 baseState authReq1).1 = .authenticated "u" ∧
    (authenticateRequest hmacConst 0 baseState authReq1).2 ≠ baseState ∧
    (authenticateRequest hmacConst 0 baseState authReq1).2.dirs =
      [["storage", "u"], ["storage"]] := by decide

/-- C4 as amended: the middleware never mutates the metadata store
(credential rows, bucket rows) nor any stored object's bytes, and a
rejected request leaves the state exactly unchanged; but a successful
authentication performs one backing-store mutation, the idempotent
creation of `storage/<owner>`. -/
theorem auth_mutates_only_tenant_root_dir (hmac : String → String → String)
    (now : Int) (s : St) (r : AuthReq) :
    (authenticateRequest hmac now s r).2.apiKeys = s.apiKeys ∧
    (authenticateRequest hmac now s r).2.buckets = s.buckets ∧
    (authenticateRequest hmac now s r).2.files = s.files ∧
    (∀ owner, (authenticateRequest hmac now s r).1 = .authenticated owner →
      (authenticateRequest hmac now s r).2 =
        { s with dirs := insertDir s.dirs ["storage", owner] }) ∧
    ((∀ owner, (authenticateRequest hmac now s r).1 ≠ .authenticated owner) →
      (authenticateRequest hmac now s r).2 = s) := by
  unfold authenticateRequest
  split
  · exact ⟨rfl, rfl, rfl, fun owner h => by simp at h, fun _ => rfl⟩
  · dsimp only
    split
    · exact ⟨rfl, rfl, rfl, fun owner h => by simp at h, fun _ => rfl⟩
    · split
      · exact ⟨rfl, rfl, rfl, fun owner h => by simp at h, fun _ => rfl⟩
      · split
        · exact ⟨rfl, rfl, rfl, fun owner h => by simp at h, fun _ => rfl⟩
        · refine ⟨rfl, rfl, rfl, ?_, ?_⟩
          · intro owner h
            simp only at h
            obtain rfl : r.accessId.getD "" = owner := by
              simpa using h
            rfl
          · intro hno
            exact absurd rfl (hno (r.accessId.getD ""))

/-- Witness for the amended C4: instantiated at the valid concrete
request (for the final-conjunct shape; the interesting mutation fact is
the counterexample above). -/
theorem auth_mutates_only_tenant_root_dir_witness :
    (authenticateRequest hmacConst 0 baseState authReq1).2.apiKeys = baseState.apiKeys ∧
    (authenticateRequest hmacConst 0 baseState authReq1).2.buckets = baseState.buckets ∧
    (authenticateRequest hmacConst 0 baseState authReq1).2.files = baseState.files ∧
    (∀ owner, (authenticateRequest hmacConst 0 baseState authReq1).1 = .authenticated owner →
      (authenticateRequest hmacConst 0 baseState authReq1).2 =
        { baseState with dirs := insertDir baseState.dirs ["storage", owner] }) ∧
    ((∀ owner,
        (authenticateRequest hmacConst 0 baseState authReq1).1 ≠ .authenticated owner) →
      (authenticateRequest hmacConst 0 baseState authReq1).2 = baseState) :=
  auth_mutates_only_tenant_root_dir hmacConst 0 baseState authReq1

/-- C10: when the timestamp header is present but `parseInt` cannot
extract a number from it (`NaN`), the freshness comparison
`NaN < fifteenMinutesAgo` is `false`, so the request is never rejected
as expired: if it carries a known access id and is signed with the
correct secret over that same timestamp string, it authenticates at any
server time `now`, however far past the 15-minute window. -/
theorem nan_timestamp_bypasses_freshness (hmac : String → String → String) (now : Int)
    (s : St) (r : AuthReq) (k : ApiKeyRec) (ts : String)
    (hts : r.timestamp = some ts) (htsne : ts ≠ "")
    (hid : truthy r.accessId = true)
    (hk : findApiKey s (r.accessId.getD "") = some k)
    (hnan : parseIntJS ts = none)
    (hsig : r.signature = some (hmac k.secretAccessKey (r.method ++ r.originalUrl ++ ts)))
    (hsne : hmac k.secretAccessKey (r.method ++ r.originalUrl ++ ts) ≠ "") :
    (authenticateRequest hmac now s r).1 = .authenticated (r.accessId.getD "") := by
  unfold authenticateRequest
  have htruthy : (truthy r.accessId && truthy r.signature && truthy r.timestamp) = true := by
    rw [hid, hts, hsig]
    simp [truthy, htsne, hsne]
  rw [htruthy]
  dsimp only
  rw [hk]
  dsimp only
  rw [hts]
  simp only [Option.getD_some]
  rw [hnan]
  dsimp only
  rw [if_neg (by simp)]
  rw [hsig]
  simp only [Option.getD_some]
  simp

/-- Witness for C10: the unparseable timestamp `zzz`, correctly signed,
authenticates even with `now` a million seconds into the epoch. -/
theorem nan_timestamp_bypasses_freshness_witness :
    (authenticateRequest hmacConst 1000000000000 baseState
      { accessId := some "u", signature := some "sig", timestamp := some "zzz",
        method := "GET", originalUrl := "/x" }).1 =
      .authenticated (((some "u") : Option String).getD "") :=
  nan_timestamp_bypasses_freshness hmacConst 1000000000000 baseState
    { accessId := some "u", signature := some "sig", timestamp := some "zzz",
      method := "GET", originalUrl := "/x" }
    ⟨"sec", "free", 0⟩ "zzz" rfl (by decide) (by decide) (by decide) (by decide) rfl
    (by decide)
